import Mathlib

/-!
Shallow embedding of `src/fetch_info.py` (repository `vathmos/readmefetch`).

The script is a thin client over a hosting-platform API.  We embed every
API response as explicit data: a repository carries the values the script
reads from it, and each remote call that can raise an exception is an
`Option` field (`none` models the call raising, `some v` the call
returning `v`).  Python dictionaries built by insertion (`defaultdict`,
`Counter`, dict comprehensions) are association lists in insertion order;
Python sets of names are lists used only through membership.
-/

namespace ReadmeFetch

/-- Configuration loaded from `config.json`. -/
structure Config where
  exclude_organizations : Bool
  max_languages : Int
deriving Repr, DecidableEq

/-- A repository object, with the fields and remote calls the script uses.
`get_languages`, `commits_count`, `issues_count`, `pulls_count` model the
results of `repo.get_languages()`, `repo.get_commits(author=user).totalCount`,
`repo.get_issues(creator=user.login).totalCount` and
`repo.get_pulls(state="all").totalCount`; `none` models the call raising. -/
structure Repo where
  full_name : String
  visibility : String
  fork : Bool
  owner_type : String
  stargazers_count : Nat
  get_languages : Option (List (String × Nat))
  commits_count : Option Nat
  issues_count : Option Nat
  pulls_count : Option Nat
deriving Repr, DecidableEq

/-- One result of `g.search_issues(query)`.  `pull_request` models the
optional `pull_request` attribute (`some ()` when the attribute is present,
i.e. the result is a pull request). -/
structure SearchResult where
  repository_full_name : String
  pull_request : Option Unit
deriving Repr, DecidableEq

/-- A calendar date, standing for the `datetime` values of the user object. -/
structure Date where
  day : Nat
  month : Nat
  year : Nat
deriving Repr, DecidableEq

/-- The authenticated user object fields read by `fetch_stats`. -/
structure User where
  login : String
  followers : Nat
  following : Nat
  public_repos : Nat
  public_gists : Nat
  bio : Option String
  location : Option String
  company : Option String
  email : Option String
  blog : Option String
  hireable : Option Bool
  created_at : Date
  updated_at : Date
deriving Repr, DecidableEq

/-- All API responses a run of the script observes: the user object, the
response of `get_user().get_repos(type="public")`, the two search queries,
and the loaded configuration. -/
structure GithubEnv where
  user : User
  api_repos : List Repo
  pr_search_results : List SearchResult
  issue_search_results : List SearchResult
  config : Config
deriving Repr, DecidableEq

/-- `strftime("%d-%m-%Y")`. -/
def pad2 (n : Nat) : String :=
  if n < 10 then "0" ++ toString n else toString n

def strftime_dmY (d : Date) : String :=
  pad2 d.day ++ "-" ++ pad2 d.month ++ "-" ++ toString d.year

/-- `get_repos`: keep public repos, optionally drop organization-owned ones. -/
def get_repos (cfg : Config) (api_repos : List Repo) : List Repo :=
  let repos := api_repos.filter (fun repo => repo.visibility == "public")
  if cfg.exclude_organizations then
    repos.filter (fun repo => repo.owner_type != "Organization")
  else
    repos

/-- Sum of the values of an association list (Python `sum(d.values())`). -/
def sumValues (d : List (String × Nat)) : Nat :=
  (d.map (fun p => p.2)).sum

/-- `get_bytes_of_code_from_repos`: sum language bytes over all repos,
skipping a repo whose `get_languages()` raises. -/
def get_bytes_of_code_from_repos (repos : List Repo) : Nat :=
  repos.foldl
    (fun total_bytes repo =>
      match repo.get_languages with
      | none => total_bytes
      | some languages => total_bytes + sumValues languages)
    0

/-- `Counter` update `c[k] += n`: increment in place, or append `(k, n)`. -/
def counterAdd (d : List (String × Nat)) (k : String) (n : Nat) : List (String × Nat) :=
  match d with
  | [] => [(k, n)]
  | (a, v) :: t => if a = k then (a, v + n) :: t else (a, v) :: counterAdd t k n

/-- `get_languages_from_repos`: aggregate language bytes over non-fork public
repos, skipping a repo whose `get_languages()` raises. -/
def get_languages_from_repos (repos : List Repo) : List (String × Nat) :=
  repos.foldl
    (fun languages repo =>
      if repo.fork || repo.visibility != "public" then languages
      else
        match repo.get_languages with
        | none => languages
        | some items => items.foldl (fun c p => counterAdd c p.1 p.2) languages)
    []

/-- Python slice `l[:n]` (a negative `n` counts from the end). -/
def pySlice (n : Int) (l : List (String × Nat)) : List (String × Nat) :=
  if 0 ≤ n then l.take n.toNat else l.take ((l.length : Int) + n).toNat

/-- One output line of `format_languages`. -/
def lang_line (p : String × Nat) : String :=
  "- " ++ p.1 ++ ": " ++ toString p.2 ++ " bytes of code"

/-- Stable insertion (an element goes before the first strictly smaller byte
count), building the descending order of `sorted(..., reverse=True)`. -/
def insertDesc (x : String × Nat) : List (String × Nat) → List (String × Nat)
  | [] => [x]
  | y :: t => if y.2 ≤ x.2 then x :: y :: t else y :: insertDesc x t

/-- Python `sorted(languages.items(), key=lambda x: x[1], reverse=True)`:
stable, descending by byte count.  Stability makes this output unique, so any
stable sort with the same comparison computes the same list. -/
def sortDesc : List (String × Nat) → List (String × Nat)
  | [] => []
  | x :: t => insertDesc x (sortDesc t)

/-- The list `sorted_lang` of `format_languages` after sorting and truncation. -/
def sorted_truncated (cfg : Config) (languages : List (String × Nat)) : List (String × Nat) :=
  let sorted_lang := sortDesc languages
  if cfg.max_languages != -1 then pySlice cfg.max_languages sorted_lang else sorted_lang

/-- `format_languages`. -/
def format_languages (cfg : Config) (languages : List (String × Nat)) : String :=
  let sorted_lang := sorted_truncated cfg languages
  if sorted_lang.isEmpty then ""
  else "\n" ++ String.intercalate "\n" (sorted_lang.map lang_line)

/-- `defaultdict(int)` update `d[k] += 1`. -/
def dictIncr (d : List (String × Nat)) (k : String) : List (String × Nat) :=
  match d with
  | [] => [(k, 1)]
  | (a, v) :: t => if a = k then (a, v + 1) :: t else (a, v) :: dictIncr t k

/-- Dictionary lookup `d[k]` (`none` when the key is absent). -/
def dlookup (d : List (String × Nat)) (k : String) : Option Nat :=
  match d with
  | [] => none
  | (a, v) :: t => if a = k then some v else dlookup t k

/-- The key list of a dictionary. -/
def keys (d : List (String × Nat)) : List String :=
  d.map (fun p => p.1)

/-- Output shape shared by `get_pr_contributions` and `get_issue_contributions`
(`total` stands for `total_prs`, respectively `total_issues`). -/
structure Contributions where
  total : Nat
  by_repo : List (String × Nat)
  own_repos : List (String × Nat)
  external_repos : List (String × Nat)
deriving Repr, DecidableEq

/-- The `by_repo` loop of `get_pr_contributions`. -/
def pr_by_repo (results : List SearchResult) : List (String × Nat) :=
  results.foldl (fun d pr => dictIncr d pr.repository_full_name) []

/-- `get_pr_contributions`, as a function of the search response and of the
set of owned repository names. -/
def get_pr_contributions (results : List SearchResult) (owned_repo_names : List String) :
    Contributions :=
  let by_repo := pr_by_repo results
  { total := sumValues by_repo
    by_repo := by_repo
    own_repos := by_repo.filter (fun p => decide (p.1 ∈ owned_repo_names))
    external_repos := by_repo.filter (fun p => !decide (p.1 ∈ owned_repo_names)) }

/-- The `by_repo` loop of `get_issue_contributions`: results carrying a
`pull_request` attribute are skipped. -/
def issue_by_repo (results : List SearchResult) : List (String × Nat) :=
  results.foldl
    (fun d issue =>
      if issue.pull_request.isSome then d
      else dictIncr d issue.repository_full_name)
    []

/-- `get_issue_contributions`. -/
def get_issue_contributions (results : List SearchResult) (owned_repo_names : List String) :
    Contributions :=
  let by_repo := issue_by_repo results
  { total := sumValues by_repo
    by_repo := by_repo
    own_repos := by_repo.filter (fun p => decide (p.1 ∈ owned_repo_names))
    external_repos := by_repo.filter (fun p => !decide (p.1 ∈ owned_repo_names)) }

/-- One iteration of the own-repo loop of `fetch_stats`: the three remote
calls run in order inside one `try`, so a repo whose later call raises keeps
the increments of the calls that already succeeded. -/
def own_repo_step (acc : Nat × Nat × Nat) (repo : Repo) : Nat × Nat × Nat :=
  if repo.fork || repo.visibility != "public" then acc
  else
    match repo.commits_count with
    | none => acc
    | some c =>
      match repo.issues_count with
      | none => (acc.1 + c, acc.2.1, acc.2.2)
      | some i =>
        match repo.pulls_count with
        | none => (acc.1 + c, acc.2.1 + i, acc.2.2)
        | some p => (acc.1 + c, acc.2.1 + i, acc.2.2 + p)

/-- The own-repo loop of `fetch_stats`: totals
(commits, issues, pull requests). -/
def own_repo_totals (repos : List Repo) : Nat × Nat × Nat :=
  repos.foldl own_repo_step (0, 0, 0)

/-- Componentwise sum of (commits, issues, pull requests) totals. -/
def addTriple (a b : Nat × Nat × Nat) : Nat × Nat × Nat :=
  (a.1 + b.1, a.2.1 + b.2.1, a.2.2 + b.2.2)

/-- What a single repository adds to the own-repo totals of `fetch_stats`. -/
def own_repo_contribution (repo : Repo) : Nat × Nat × Nat :=
  own_repo_step (0, 0, 0) repo

/-- What a single repository adds to `get_bytes_of_code_from_repos`. -/
def bytes_contribution (repo : Repo) : Nat :=
  match repo.get_languages with
  | none => 0
  | some languages => sumValues languages

/-- What a single repository adds to the values of `get_languages_from_repos`. -/
def lang_contribution (repo : Repo) : Nat :=
  if repo.fork || repo.visibility != "public" then 0
  else bytes_contribution repo

/-- The dictionary returned by `fetch_stats`. -/
structure Report where
  username : String
  followers : Nat
  following : Nat
  public_repos : Nat
  public_gists : Nat
  total_stars : Nat
  bytes_of_code : Nat
  bio : Option String
  location : Option String
  company : Option String
  email : Option String
  website : Option String
  hireable : Option Bool
  created_at : String
  updated_at : String
  languages : List (String × Nat)
  languages_pretty : String
  total_commits_in_own_repos : Nat
  total_issues_in_own_repos : Nat
  total_prs_in_own_repos : Nat
  pr_contributions : Contributions
  issue_contributions : Contributions
deriving Repr, DecidableEq

/-- `fetch_stats`. -/
def fetch_stats (g : GithubEnv) : Report :=
  let repos := get_repos g.config g.api_repos
  let owned_repo_names := repos.map (fun repo => repo.full_name)
  let totals := own_repo_totals repos
  let pr_contribs := get_pr_contributions g.pr_search_results owned_repo_names
  let issue_contribs := get_issue_contributions g.issue_search_results owned_repo_names
  let languages := get_languages_from_repos repos
  { username := g.user.login
    followers := g.user.followers
    following := g.user.following
    public_repos := g.user.public_repos
    public_gists := g.user.public_gists
    total_stars := (repos.map (fun repo => repo.stargazers_count)).sum
    bytes_of_code := get_bytes_of_code_from_repos repos
    bio := g.user.bio
    location := g.user.location
    company := g.user.company
    email := g.user.email
    website := g.user.blog
    hireable := g.user.hireable
    created_at := strftime_dmY g.user.created_at
    updated_at := strftime_dmY g.user.updated_at
    languages := languages
    languages_pretty := format_languages g.config languages
    total_commits_in_own_repos := totals.1
    total_issues_in_own_repos := totals.2.1
    total_prs_in_own_repos := totals.2.2
    pr_contributions := pr_contribs
    issue_contributions := issue_contribs }

/-! Concrete sample data, used to evaluate the definitions at explicit inputs. -/

def sr1 : SearchResult :=
  { repository_full_name := "alice/app", pull_request := none }

def sr2 : SearchResult :=
  { repository_full_name := "bob/lib", pull_request := some () }

/-- A forked repository whose language dictionary is empty. -/
def fork_repo : Repo :=
  { full_name := "alice/forked", visibility := "public", fork := true,
    owner_type := "User", stargazers_count := 0, get_languages := some [],
    commits_count := some 0, issues_count := some 0, pulls_count := some 0 }

/-- A repository for which `get_commits` succeeds but `get_issues` raises. -/
def failing_repo : Repo :=
  { full_name := "alice/flaky", visibility := "public", fork := false,
    owner_type := "User", stargazers_count := 0, get_languages := some [],
    commits_count := some 5, issues_count := none, pulls_count := some 3 }

/-- A configuration with a negative `max_languages` other than `-1`. -/
def neg_cfg : Config :=
  { exclude_organizations := true, max_languages := -2 }

/-- A configuration with a positive `max_languages`. -/
def pos_cfg : Config :=
  { exclude_organizations := true, max_languages := 1 }

/-- A repository for which every remote call raises. -/
def crash_repo : Repo :=
  { full_name := "alice/crash", visibility := "public", fork := false,
    owner_type := "User", stargazers_count := 0, get_languages := none,
    commits_count := none, issues_count := none, pulls_count := none }

def sample_config : Config :=
  { exclude_organizations := true, max_languages := -1 }

def sample_user : User :=
  { login := "alice", followers := 1, following := 2, public_repos := 3,
    public_gists := 0, bio := none, location := none, company := none,
    email := none, blog := none, hireable := none,
    created_at := ⟨5, 6, 2020⟩, updated_at := ⟨7, 8, 2021⟩ }

def sample_repo : Repo :=
  { full_name := "alice/app", visibility := "public", fork := false,
    owner_type := "User", stargazers_count := 4,
    get_languages := some [("Python", 10)],
    commits_count := some 2, issues_count := some 1, pulls_count := some 1 }

def sample_env : GithubEnv :=
  { user := sample_user, api_repos := [sample_repo],
    pr_search_results := [sr1], issue_search_results := [sr1, sr2],
    config := sample_config }

/-! Helper lemmas about dictionaries. -/

theorem sumValues_nil : sumValues [] = 0 := rfl

theorem sumValues_cons (a : String × Nat) (t : List (String × Nat)) :
    sumValues (a :: t) = a.2 + sumValues t := by
  simp [sumValues]

theorem sumValues_filter_partition (p : String × Nat → Bool) (d : List (String × Nat)) :
    sumValues (d.filter p) + sumValues (d.filter (fun x => !p x)) = sumValues d := by
  induction d with
  | nil => rfl
  | cons a t ih =>
    by_cases h : p a <;>
      simp only [List.filter_cons, h, Bool.not_true, Bool.not_false, if_true, if_false,
        Bool.true_eq_false, Bool.false_eq_true, sumValues_cons] <;> omega

theorem dlookup_filter_key (q : String → Bool) (d : List (String × Nat)) (k : String) :
    dlookup (d.filter (fun p => q p.1)) k = if q k then dlookup d k else none := by
  induction d with
  | nil => by_cases h : q k <;> simp [dlookup, h]
  | cons a t ih =>
    obtain ⟨x, v⟩ := a
    by_cases hq : q x
    · by_cases hk : x = k
      · subst hk
        simp [List.filter_cons, hq, dlookup]
      · simp [List.filter_cons, hq, dlookup, hk, ih]
    · by_cases hk : x = k
      · subst hk
        simp only [Bool.not_eq_true] at hq
        simp [List.filter_cons, hq, dlookup, ih]
      · simp only [Bool.not_eq_true] at hq
        simp [List.filter_cons, hq, dlookup, hk, ih]

theorem dlookup_isSome_iff (d : List (String × Nat)) (k : String) :
    (dlookup d k).isSome = true ↔ k ∈ keys d := by
  induction d with
  | nil => simp [dlookup, keys]
  | cons a t ih =>
    obtain ⟨x, v⟩ := a
    simp only [keys, List.map_cons, List.mem_cons] at ih ⊢
    by_cases h : x = k
    · subst h
      simp [dlookup]
    · simp only [dlookup, h, if_false]
      rw [ih]
      constructor
      · exact fun hm => Or.inr hm
      · rintro (rfl | hm)
        · exact absurd rfl h
        · exact hm

theorem mem_keys_filter (q : String → Bool) (d : List (String × Nat)) (k : String) :
    k ∈ keys (d.filter (fun p => q p.1)) ↔ k ∈ keys d ∧ q k = true := by
  rw [← dlookup_isSome_iff, ← dlookup_isSome_iff, dlookup_filter_key]
  by_cases h : q k <;> simp [h]

theorem dlookup_dictIncr (d : List (String × Nat)) (k k' : String) :
    dlookup (dictIncr d k) k' =
      if k' = k then some ((dlookup d k').getD 0 + 1) else dlookup d k' := by
  induction d with
  | nil =>
    by_cases h : k' = k
    · subst h
      simp [dictIncr, dlookup]
    · have h2 : ¬k = k' := fun he => h he.symm
      simp [dictIncr, dlookup, h, h2]
  | cons a t ih =>
    obtain ⟨x, v⟩ := a
    by_cases hx : x = k
    · subst hx
      by_cases h : k' = x
      · subst h
        simp [dictIncr, dlookup]
      · have h2 : ¬x = k' := fun he => h he.symm
        simp [dictIncr, dlookup, h, h2]
    · by_cases h : x = k'
      · have hk : ¬k' = k := fun he => hx (h.trans he)
        simp [dictIncr, hx, dlookup, h, hk, ih]
      · simp [dictIncr, hx, dlookup, h, ih]

theorem sumValues_dictIncr (d : List (String × Nat)) (k : String) :
    sumValues (dictIncr d k) = sumValues d + 1 := by
  induction d with
  | nil => rfl
  | cons a t ih =>
    obtain ⟨x, v⟩ := a
    by_cases h : x = k <;> simp [dictIncr, h, sumValues_cons, ih] <;> omega

theorem foldl_dictIncr_sum (results : List SearchResult) (d : List (String × Nat)) :
    sumValues (results.foldl (fun d r => dictIncr d r.repository_full_name) d) =
      sumValues d + results.length := by
  induction results generalizing d with
  | nil => simp
  | cons r t ih =>
    rw [List.foldl_cons, ih, sumValues_dictIncr, List.length_cons]
    omega

theorem foldl_dictIncr_lookup (results : List SearchResult) (d : List (String × Nat))
    (k : String) :
    (dlookup (results.foldl (fun d r => dictIncr d r.repository_full_name) d) k).getD 0 =
      (dlookup d k).getD 0 +
        results.countP (fun r => decide (r.repository_full_name = k)) := by
  induction results generalizing d with
  | nil => simp
  | cons r t ih =>
    rw [List.foldl_cons, ih, dlookup_dictIncr, List.countP_cons]
    by_cases h : k = r.repository_full_name
    · simp [h]
      omega
    · have h2 : ¬r.repository_full_name = k := fun he => h he.symm
      simp [h, h2]

theorem foldl_skip {α β : Type} (f : β → α → β) (l₁ l₂ : List α) (x : α)
    (hx : ∀ b, f b x = b) (b : β) :
    (l₁ ++ x :: l₂).foldl f b = (l₁ ++ l₂).foldl f b := by
  simp [List.foldl_append, List.foldl_cons, hx]

theorem bucket_props (br : List (String × Nat)) (owned : List String) (name : String) :
    (name ∈ keys (br.filter (fun p => decide (p.1 ∈ owned))) ↔
        name ∈ keys br ∧ name ∈ owned) ∧
    (name ∈ keys (br.filter (fun p => !decide (p.1 ∈ owned))) ↔
        name ∈ keys br ∧ name ∉ owned) ∧
    ¬(name ∈ keys (br.filter (fun p => decide (p.1 ∈ owned))) ∧
        name ∈ keys (br.filter (fun p => !decide (p.1 ∈ owned)))) ∧
    (name ∈ keys br ↔
        name ∈ keys (br.filter (fun p => decide (p.1 ∈ owned))) ∨
          name ∈ keys (br.filter (fun p => !decide (p.1 ∈ owned)))) ∧
    (name ∈ keys (br.filter (fun p => decide (p.1 ∈ owned))) →
        dlookup (br.filter (fun p => decide (p.1 ∈ owned))) name = dlookup br name) ∧
    (name ∈ keys (br.filter (fun p => !decide (p.1 ∈ owned))) →
        dlookup (br.filter (fun p => !decide (p.1 ∈ owned))) name = dlookup br name) := by
  have h1 := mem_keys_filter (fun s => decide (s ∈ owned)) br name
  have h2 := mem_keys_filter (fun s => !decide (s ∈ owned)) br name
  have l1 := dlookup_filter_key (fun s => decide (s ∈ owned)) br name
  have l2 := dlookup_filter_key (fun s => !decide (s ∈ owned)) br name
  simp only [Bool.not_eq_true', decide_eq_false_iff_not, decide_eq_true_eq] at h1 h2
  refine ⟨h1, h2, ?_, ?_, ?_, ?_⟩
  · rintro ⟨ha, hb⟩
    exact (h2.mp hb).2 (h1.mp ha).2
  · rw [h1, h2]
    by_cases hm : name ∈ owned <;> simp [hm]
  · intro ha
    rw [l1]
    simp [(h1.mp ha).2]
  · intro hb
    rw [l2]
    simp [(h2.mp hb).2]

/-! Claim theorems. -/

/-- Claim C1: for every sequence of search results and every set of owned
repository names, the sum of the values of `own_repos` plus the sum of the
values of `external_repos` equals the total (`total_prs`, respectively
`total_issues`), which itself equals the sum of the values of `by_repo`,
for both `get_pr_contributions` and `get_issue_contributions`. -/
theorem C1_bucket_sums_equal_total (pr_results issue_results : List SearchResult)
    (owned : List String) :
    (sumValues (get_pr_contributions pr_results owned).own_repos +
        sumValues (get_pr_contributions pr_results owned).external_repos =
          (get_pr_contributions pr_results owned).total ∧
      (get_pr_contributions pr_results owned).total =
        sumValues (get_pr_contributions pr_results owned).by_repo) ∧
    (sumValues (get_issue_contributions issue_results owned).own_repos +
        sumValues (get_issue_contributions issue_results owned).external_repos =
          (get_issue_contributions issue_results owned).total ∧
      (get_issue_contributions issue_results owned).total =
        sumValues (get_issue_contributions issue_results owned).by_repo) :=
  ⟨⟨sumValues_filter_partition _ _, rfl⟩, ⟨sumValues_filter_partition _ _, rfl⟩⟩

/-- Claim C2: in the output of `get_pr_contributions` and
`get_issue_contributions`, a name is a key of `own_repos` iff it is a key of
`by_repo` and lies in `owned_repo_names`, a key of `external_repos` iff it is
a key of `by_repo` and does not lie in `owned_repo_names`; the two key sets
are disjoint, their union is the key set of `by_repo`, and each bucket
carries the same count as `by_repo`. -/
theorem C2_bucket_membership (pr_results issue_results : List SearchResult)
    (owned : List String) (name : String) :
    ((name ∈ keys (get_pr_contributions pr_results owned).own_repos ↔
        name ∈ keys (get_pr_contributions pr_results owned).by_repo ∧ name ∈ owned) ∧
      (name ∈ keys (get_pr_contributions pr_results owned).external_repos ↔
        name ∈ keys (get_pr_contributions pr_results owned).by_repo ∧ name ∉ owned) ∧
      ¬(name ∈ keys (get_pr_contributions pr_results owned).own_repos ∧
          name ∈ keys (get_pr_contributions pr_results owned).external_repos) ∧
      (name ∈ keys (get_pr_contributions pr_results owned).by_repo ↔
        name ∈ keys (get_pr_contributions pr_results owned).own_repos ∨
          name ∈ keys (get_pr_contributions pr_results owned).external_repos) ∧
      (name ∈ keys (get_pr_contributions pr_results owned).own_repos →
        dlookup (get_pr_contributions pr_results owned).own_repos name =
          dlookup (get_pr_contributions pr_results owned).by_repo name) ∧
      (name ∈ keys (get_pr_contributions pr_results owned).external_repos →
        dlookup (get_pr_contributions pr_results owned).external_repos name =
          dlookup (get_pr_contributions pr_results owned).by_repo name)) ∧
    ((name ∈ keys (get_issue_contributions issue_results owned).own_repos ↔
        name ∈ keys (get_issue_contributions issue_results owned).by_repo ∧ name ∈ owned) ∧
      (name ∈ keys (get_issue_contributions issue_results owned).external_repos ↔
        name ∈ keys (get_issue_contributions issue_results owned).by_repo ∧ name ∉ owned) ∧
      ¬(name ∈ keys (get_issue_contributions issue_results owned).own_repos ∧
          name ∈ keys (get_issue_contributions issue_results owned).external_repos) ∧
      (name ∈ keys (get_issue_contributions issue_results owned).by_repo ↔
        name ∈ keys (get_issue_contributions issue_results owned).own_repos ∨
          name ∈ keys (get_issue_contributions issue_results owned).external_repos) ∧
      (name ∈ keys (get_issue_contributions issue_results owned).own_repos →
        dlookup (get_issue_contributions issue_results owned).own_repos name =
          dlookup (get_issue_contributions issue_results owned).by_repo name) ∧
      (name ∈ keys (get_issue_contributions issue_results owned).external_repos →
        dlookup (get_issue_contributions issue_results owned).external_repos name =
          dlookup (get_issue_contributions issue_results owned).by_repo name)) :=
  ⟨bucket_props (pr_by_repo pr_results) owned name,
    bucket_props (issue_by_repo issue_results) owned name⟩

/-- Witness for C2 at a concrete input: one PR by `alice` in her own
repository lands in `own_repos` with the same count as `by_repo`. -/
theorem C2_bucket_membership_witness :
    ("alice/app" ∈ keys (get_pr_contributions [sr1] ["alice/app"]).own_repos) ∧
    dlookup (get_pr_contributions [sr1] ["alice/app"]).own_repos "alice/app" =
      dlookup (get_pr_contributions [sr1] ["alice/app"]).by_repo "alice/app" :=
  ⟨by decide,
    (C2_bucket_membership [sr1] [] ["alice/app"] "alice/app").1.2.2.2.2.1 (by decide)⟩

/-- Claim C3: `get_pr_contributions` maps each repository name that is a key
of `by_repo` to the exact number of search results whose repository full name
equals it, and `total_prs` equals the number of search results. -/
theorem C3_by_repo_exact_counts (results : List SearchResult) (owned : List String)
    (name : String) :
    (name ∈ keys (get_pr_contributions results owned).by_repo →
      dlookup (get_pr_contributions results owned).by_repo name =
        some (results.countP (fun r => decide (r.repository_full_name = name)))) ∧
    (get_pr_contributions results owned).total = results.length := by
  constructor
  · intro hmem
    have hs : (dlookup (pr_by_repo results) name).isSome = true :=
      (dlookup_isSome_iff _ _).mpr hmem
    obtain ⟨v, hv⟩ := Option.isSome_iff_exists.mp hs
    have hd : (dlookup (pr_by_repo results) name).getD 0 =
        results.countP (fun r => decide (r.repository_full_name = name)) := by
      have h0 := foldl_dictIncr_lookup results [] name
      simpa [pr_by_repo, dlookup] using h0
    show dlookup (pr_by_repo results) name = _
    rw [hv] at hd ⊢
    simp only [Option.getD_some] at hd
    rw [hd]
  · show sumValues (pr_by_repo results) = results.length
    have := foldl_dictIncr_sum results []
    simpa [sumValues_nil] using this

/-- Witness for C3 at a concrete input: a single PR search result gives that
repository a count of one. -/
theorem C3_by_repo_exact_counts_witness :
    ("alice/app" ∈ keys (get_pr_contributions [sr1] []).by_repo) ∧
    dlookup (get_pr_contributions [sr1] []).by_repo "alice/app" =
      some ([sr1].countP (fun r => decide (r.repository_full_name = "alice/app"))) :=
  ⟨by decide, (C3_by_repo_exact_counts [sr1] [] "alice/app").1 (by decide)⟩

/-- Claim C4: a search result that carries a `pull_request` attribute
contributes nothing to `get_issue_contributions`: deleting it from the
search response leaves the whole output unchanged. -/
theorem C4_pull_requests_skipped (l₁ l₂ : List SearchResult) (r : SearchResult)
    (owned : List String) (h : r.pull_request.isSome = true) :
    get_issue_contributions (l₁ ++ r :: l₂) owned =
      get_issue_contributions (l₁ ++ l₂) owned := by
  have hb : issue_by_repo (l₁ ++ r :: l₂) = issue_by_repo (l₁ ++ l₂) := by
    unfold issue_by_repo
    exact foldl_skip _ l₁ l₂ r (fun b => by simp [h]) []
  simp only [get_issue_contributions, hb]

/-- Witness for C4 at a concrete input: the pull-request search result `sr2`
is ignored by the issue aggregation. -/
theorem C4_pull_requests_skipped_witness :
    sr2.pull_request.isSome = true ∧
    get_issue_contributions [sr1, sr2] ["alice/app"] =
      get_issue_contributions [sr1] ["alice/app"] :=
  ⟨by decide, C4_pull_requests_skipped [sr1] [] sr2 ["alice/app"] (by decide)⟩

/-- Claim C5: every repository in the list returned by `get_repos` has
visibility `"public"`, so the aggregates of `fetch_stats` computed from that
list range only over public repositories. -/
theorem C5_get_repos_public (cfg : Config) (api_repos : List Repo) (repo : Repo)
    (h : repo ∈ get_repos cfg api_repos) : repo.visibility = "public" := by
  by_cases hc : cfg.exclude_organizations
  · simp only [get_repos, hc, if_true, List.mem_filter] at h
    simpa using h.1.2
  · simp only [get_repos, hc, Bool.false_eq_true, if_false, List.mem_filter] at h
    simpa using h.2

/-- Witness for C5 at a concrete input: `sample_repo` is returned by
`get_repos` and is public. -/
theorem C5_get_repos_public_witness :
    sample_repo ∈ get_repos sample_config [sample_repo] ∧
    sample_repo.visibility = "public" :=
  ⟨by decide, C5_get_repos_public sample_config [sample_repo] sample_repo (by decide)⟩

/-- Claim C6: the `total_stars` field of `fetch_stats` is the sum of
`stargazers_count` over every repository returned by `get_repos`, with no
further filtering. -/
theorem C6_total_stars (g : GithubEnv) :
    (fetch_stats g).total_stars =
      ((get_repos g.config g.api_repos).map (fun repo => repo.stargazers_count)).sum := rfl

/-- Claim C7: `fetch_stats` is deterministic over its inputs: two runs that
observe identical API responses and configuration return identical reports. -/
theorem C7_deterministic (g₁ g₂ : GithubEnv) (h : g₁ = g₂) :
    fetch_stats g₁ = fetch_stats g₂ :=
  congrArg fetch_stats h

/-- Witness for C7 at a concrete input. -/
theorem C7_deterministic_witness :
    fetch_stats sample_env = fetch_stats sample_env :=
  C7_deterministic sample_env sample_env rfl

/-! Helper lemmas for the byte-count comparison (claim C8). -/

theorem get_bytes_eq_sum (repos : List Repo) :
    get_bytes_of_code_from_repos repos = (repos.map bytes_contribution).sum := by
  have aux : ∀ (l : List Repo) (a : Nat),
      l.foldl
        (fun total_bytes repo =>
          match repo.get_languages with
          | none => total_bytes
          | some languages => total_bytes + sumValues languages) a =
      a + (l.map bytes_contribution).sum := by
    intro l
    induction l with
    | nil => intro a; simp
    | cons r t ih =>
      intro a
      rw [List.foldl_cons, List.map_cons, List.sum_cons]
      cases hr : r.get_languages with
      | none =>
        rw [ih]
        simp [bytes_contribution, hr]
      | some langs =>
        rw [ih]
        simp [bytes_contribution, hr]
        omega
  have h := aux repos 0
  simpa [get_bytes_of_code_from_repos] using h

theorem sumValues_counterAdd (d : List (String × Nat)) (k : String) (n : Nat) :
    sumValues (counterAdd d k n) = sumValues d + n := by
  induction d with
  | nil => simp [counterAdd, sumValues]
  | cons a t ih =>
    obtain ⟨x, v⟩ := a
    by_cases h : x = k <;> simp [counterAdd, h, sumValues_cons, ih] <;> omega

theorem foldl_counterAdd_sum (items : List (String × Nat)) (c : List (String × Nat)) :
    sumValues (items.foldl (fun c p => counterAdd c p.1 p.2) c) =
      sumValues c + sumValues items := by
  induction items generalizing c with
  | nil => simp [sumValues_nil]
  | cons p t ih =>
    rw [List.foldl_cons, ih, sumValues_counterAdd, sumValues_cons]
    omega

theorem get_languages_sum (repos : List Repo) :
    sumValues (get_languages_from_repos repos) = (repos.map lang_contribution).sum := by
  have aux : ∀ (l : List Repo) (c : List (String × Nat)),
      sumValues (l.foldl
        (fun languages repo =>
          if repo.fork || repo.visibility != "public" then languages
          else
            match repo.get_languages with
            | none => languages
            | some items => items.foldl (fun c p => counterAdd c p.1 p.2) languages) c) =
      sumValues c + (l.map lang_contribution).sum := by
    intro l
    induction l with
    | nil => intro c; simp [sumValues_nil]
    | cons r t ih =>
      intro c
      rw [List.foldl_cons, List.map_cons, List.sum_cons]
      by_cases hf : (r.fork || r.visibility != "public") = true
      · rw [if_pos hf, ih]
        simp [lang_contribution, hf]
      · rw [if_neg hf]
        cases hr : r.get_languages with
        | none =>
          rw [ih]
          simp [lang_contribution, hf, bytes_contribution, hr]
        | some items =>
          rw [ih, foldl_counterAdd_sum]
          simp [lang_contribution, hf, bytes_contribution, hr]
          omega
  have h := aux repos []
  simpa [get_languages_from_repos, sumValues_nil] using h

theorem lang_le_bytes (r : Repo) : lang_contribution r ≤ bytes_contribution r := by
  unfold lang_contribution
  by_cases h : (r.fork || r.visibility != "public") = true <;> simp [h]

/-- Claim C8, amended: when every `get_languages` call succeeds, the sum of
the values of `get_languages_from_repos` is at most
`get_bytes_of_code_from_repos`, and when additionally no repository in the
list is a fork or non-public the two are equal.  (Equality can also hold with
a fork present, so the "exactly when" of the original claim fails.) -/
theorem C8_amended_languages_le_bytes (repos : List Repo)
    (hs : ∀ r ∈ repos, r.get_languages.isSome = true) :
    sumValues (get_languages_from_repos repos) ≤ get_bytes_of_code_from_repos repos ∧
    ((∀ r ∈ repos, ¬(r.fork = true ∨ r.visibility ≠ "public")) →
      sumValues (get_languages_from_repos repos) = get_bytes_of_code_from_repos repos) := by
  rw [get_languages_sum, get_bytes_eq_sum]
  constructor
  · exact List.sum_le_sum (fun r _ => lang_le_bytes r)
  · intro hpub
    apply congrArg List.sum
    apply List.map_congr_left
    intro r hr
    have h := hpub r hr
    push_neg at h
    have hf : r.fork = false := by
      cases hfork : r.fork
      · rfl
      · exact absurd hfork h.1
    simp [lang_contribution, hf, h.2]

/-- Counterexample to C8 as stated: a forked public repository with an empty
language dictionary makes the two sums equal although a fork is present, so
equality does not hold "exactly when" no repository is a fork or non-public. -/
theorem C8_counterexample :
    (∀ r ∈ [fork_repo], r.get_languages.isSome = true) ∧
    ¬(sumValues (get_languages_from_repos [fork_repo]) =
          get_bytes_of_code_from_repos [fork_repo] ↔
        ∀ r ∈ [fork_repo], ¬(r.fork = true ∨ r.visibility ≠ "public")) := by
  constructor
  · decide
  · decide

/-- Witness for the amended C8 at a concrete input. -/
theorem C8_amended_languages_le_bytes_witness :
    (∀ r ∈ [sample_repo], r.get_languages.isSome = true) ∧
    (∀ r ∈ [sample_repo], ¬(r.fork = true ∨ r.visibility ≠ "public")) ∧
    sumValues (get_languages_from_repos [sample_repo]) =
      get_bytes_of_code_from_repos [sample_repo] :=
  ⟨by decide, by decide,
    (C8_amended_languages_le_bytes [sample_repo] (by decide)).2 (by decide)⟩

/-! Helper lemmas for the language formatting (claim C9). -/

theorem mem_insertDesc (x a : String × Nat) (l : List (String × Nat)) :
    a ∈ insertDesc x l ↔ a = x ∨ a ∈ l := by
  induction l with
  | nil => simp [insertDesc]
  | cons y t ih =>
    by_cases h : y.2 ≤ x.2 <;> simp [insertDesc, h, ih] <;> tauto

theorem pairwise_insertDesc (x : String × Nat) (l : List (String × Nat))
    (h : List.Pairwise (fun a b => b.2 ≤ a.2) l) :
    List.Pairwise (fun a b => b.2 ≤ a.2) (insertDesc x l) := by
  induction l with
  | nil => simp [insertDesc]
  | cons y t ih =>
    rcases List.pairwise_cons.mp h with ⟨hy, ht⟩
    by_cases hc : y.2 ≤ x.2
    · rw [show insertDesc x (y :: t) = x :: y :: t by simp [insertDesc, hc]]
      refine List.pairwise_cons.mpr ⟨?_, h⟩
      intro b hb
      rcases List.mem_cons.mp hb with rfl | hb2
      · exact hc
      · exact le_trans (hy b hb2) hc
    · rw [show insertDesc x (y :: t) = y :: insertDesc x t by simp [insertDesc, hc]]
      refine List.pairwise_cons.mpr ⟨?_, ih ht⟩
      intro b hb
      rcases (mem_insertDesc x b t).mp hb with rfl | hb2
      · omega
      · exact hy b hb2

theorem pairwise_sortDesc (l : List (String × Nat)) :
    List.Pairwise (fun a b => b.2 ≤ a.2) (sortDesc l) := by
  induction l with
  | nil => simp [sortDesc]
  | cons x t ih => exact pairwise_insertDesc x (sortDesc t) ih

theorem pySlice_sublist (n : Int) (l : List (String × Nat)) :
    (pySlice n l).Sublist l := by
  unfold pySlice
  by_cases h : 0 ≤ n <;> simp [h, List.take_sublist]

theorem sorted_truncated_sublist (cfg : Config) (languages : List (String × Nat)) :
    (sorted_truncated cfg languages).Sublist (sortDesc languages) := by
  unfold sorted_truncated
  by_cases h : (cfg.max_languages != -1) = true <;> simp [h, pySlice_sublist]

/-- Claim C9, amended: the retained list (sorted then truncated) is ordered
by byte count in non-increasing order; when `max_languages` is nonnegative it
has at most `max_languages` entries; `format_languages` returns the empty
string when the dictionary is empty, and more generally whenever the retained
list is empty (which a truncation to zero or a negative slice can force even
on a nonempty dictionary); otherwise it returns a newline followed by one
line per retained language. -/
theorem C9_format_languages (cfg : Config) (languages : List (String × Nat)) :
    List.Pairwise (fun a b : String × Nat => b.2 ≤ a.2)
      (sorted_truncated cfg languages) ∧
    (0 ≤ cfg.max_languages →
      (sorted_truncated cfg languages).length ≤ cfg.max_languages.toNat) ∧
    (languages = [] → format_languages cfg languages = "") ∧
    (sorted_truncated cfg languages = [] → format_languages cfg languages = "") ∧
    (sorted_truncated cfg languages ≠ [] →
      format_languages cfg languages =
        "\n" ++ String.intercalate "\n"
          ((sorted_truncated cfg languages).map lang_line)) := by
  have hfmt_empty : sorted_truncated cfg languages = [] →
      format_languages cfg languages = "" := by
    intro h
    simp [format_languages, h]
  refine ⟨?_, ?_, ?_, hfmt_empty, ?_⟩
  · exact List.Pairwise.sublist (sorted_truncated_sublist cfg languages)
      (pairwise_sortDesc languages)
  · intro hn
    have hne : (cfg.max_languages != -1) = true := by
      simp only [bne_iff_ne, ne_eq]
      omega
    unfold sorted_truncated pySlice
    rw [if_pos hne, if_pos hn]
    exact List.length_take_le _ _
  · intro h
    apply hfmt_empty
    rw [h]
    by_cases hne : (cfg.max_languages != -1) = true <;>
      simp [sorted_truncated, sortDesc, pySlice, hne]
  · intro h
    have hie : (sorted_truncated cfg languages).isEmpty = false := by
      cases he : sorted_truncated cfg languages
      · exact absurd he h
      · rfl
    simp [format_languages, hie]

/-- Counterexample to C9 as stated: with `max_languages = -2` (not `-1`) the
Python slice `sorted_lang[:-2]` empties a one-entry dictionary, so a
nonempty language dictionary produces the empty string instead of a newline
followed by one line per language. -/
theorem C9_counterexample :
    ([("A", 1)] : List (String × Nat)) ≠ [] ∧
    neg_cfg.max_languages ≠ -1 ∧
    format_languages neg_cfg [("A", 1)] = "" := by
  refine ⟨by decide, by decide, by decide⟩

/-- Witness for the amended C9 at a concrete input: two languages, truncated
to the single largest one. -/
theorem C9_format_languages_witness :
    (0 ≤ pos_cfg.max_languages ∧
      (sorted_truncated pos_cfg [("Python", 10), ("C", 3)]).length ≤
        pos_cfg.max_languages.toNat) ∧
    (sorted_truncated pos_cfg [("Python", 10), ("C", 3)] ≠ [] ∧
      format_languages pos_cfg [("Python", 10), ("C", 3)] =
        "\n" ++ String.intercalate "\n"
          ((sorted_truncated pos_cfg [("Python", 10), ("C", 3)]).map lang_line)) :=
  ⟨⟨by decide, (C9_format_languages pos_cfg [("Python", 10), ("C", 3)]).2.1 (by decide)⟩,
    ⟨by decide, (C9_format_languages pos_cfg [("Python", 10), ("C", 3)]).2.2.2.2 (by decide)⟩⟩

/-! Helper lemmas for the own-repo loop of `fetch_stats` (claim C10). -/

theorem own_repo_step_eq (acc : Nat × Nat × Nat) (r : Repo) :
    own_repo_step acc r = addTriple acc (own_repo_contribution r) := by
  unfold own_repo_contribution own_repo_step addTriple
  by_cases hf : (r.fork || r.visibility != "public") = true
  · simp [hf]
  · simp only [hf, Bool.false_eq_true, if_false]
    cases r.commits_count <;> cases r.issues_count <;> cases r.pulls_count <;> simp

theorem addTriple_right_comm (a b c : Nat × Nat × Nat) :
    addTriple (addTriple a b) c = addTriple (addTriple a c) b := by
  simp only [addTriple, Prod.mk.injEq]
  omega

theorem foldl_own_step_addTriple (l : List Repo) (a c : Nat × Nat × Nat) :
    l.foldl own_repo_step (addTriple a c) = addTriple (l.foldl own_repo_step a) c := by
  induction l generalizing a with
  | nil => simp
  | cons r t ih =>
    rw [List.foldl_cons, List.foldl_cons, own_repo_step_eq (addTriple a c) r,
      own_repo_step_eq a r, addTriple_right_comm, ih]

theorem own_repo_totals_insert (l₁ l₂ : List Repo) (r : Repo) :
    own_repo_totals (l₁ ++ r :: l₂) =
      addTriple (own_repo_totals (l₁ ++ l₂)) (own_repo_contribution r) := by
  unfold own_repo_totals
  rw [List.foldl_append, List.foldl_append, List.foldl_cons, own_repo_step_eq]
  exact foldl_own_step_addTriple l₂ _ _

/-- Claim C10, amended: a repository whose `get_languages()` raises
contributes nothing to `get_bytes_of_code_from_repos` and to
`get_languages_from_repos`, leaving the aggregation over the other
repositories unchanged, and no exception propagates.  In the own-repo loop of
`fetch_stats`, however, the failing repository contributes exactly the
values of the calls that succeeded before the exception (so it contributes
nothing only when the first call, `get_commits`, already raises); the other
repositories are again unaffected. -/
theorem C10_failure_isolation (l₁ l₂ : List Repo) (r : Repo) :
    (r.get_languages = none →
      get_bytes_of_code_from_repos (l₁ ++ r :: l₂) =
        get_bytes_of_code_from_repos (l₁ ++ l₂)) ∧
    (r.get_languages = none →
      get_languages_from_repos (l₁ ++ r :: l₂) =
        get_languages_from_repos (l₁ ++ l₂)) ∧
    own_repo_totals (l₁ ++ r :: l₂) =
      addTriple (own_repo_totals (l₁ ++ l₂)) (own_repo_contribution r) ∧
    (r.commits_count = none → own_repo_contribution r = (0, 0, 0)) := by
  refine ⟨?_, ?_, own_repo_totals_insert l₁ l₂ r, ?_⟩
  · intro h
    unfold get_bytes_of_code_from_repos
    exact foldl_skip _ l₁ l₂ r (fun b => by simp [h]) 0
  · intro h
    unfold get_languages_from_repos
    exact foldl_skip _ l₁ l₂ r (fun b => by simp [h]) []
  · intro h
    unfold own_repo_contribution own_repo_step
    simp [h]

/-- Counterexample to C10 as stated: for `failing_repo`, `get_commits`
succeeds with 5 commits and `get_issues` then raises, yet the own-repo loop
keeps the 5 commits, so the failing repository does contribute to the
accumulated totals. -/
theorem C10_counterexample :
    failing_repo.issues_count = none ∧
    own_repo_totals [failing_repo] ≠ own_repo_totals ([] : List Repo) := by
  refine ⟨rfl, by decide⟩

/-- Witness for the amended C10 at a concrete input: a repository whose
calls all raise contributes nothing anywhere. -/
theorem C10_failure_isolation_witness :
    crash_repo.get_languages = none ∧ crash_repo.commits_count = none ∧
    get_bytes_of_code_from_repos [sample_repo, crash_repo] =
      get_bytes_of_code_from_repos [sample_repo] ∧
    get_languages_from_repos [sample_repo, crash_repo] =
      get_languages_from_repos [sample_repo] ∧
    own_repo_contribution crash_repo = (0, 0, 0) :=
  ⟨rfl, rfl,
    (C10_failure_isolation [sample_repo] [] crash_repo).1 rfl,
    (C10_failure_isolation [sample_repo] [] crash_repo).2.1 rfl,
    (C10_failure_isolation [sample_repo] [] crash_repo).2.2.2 rfl⟩

end ReadmeFetch
